import Mathlib

/-!
Shallow embedding of `src/domain_types_linter/linter_types.py`: a static
checker that walks a Python module's syntax tree and flags type
annotations using disallowed primitive or generic container types.
-/

/-- `DISALLOWED_BASE_TYPES` from the source, as a list (the source uses a
set; only membership is ever tested). -/
def DISALLOWED_BASE_TYPES : List String :=
  ["str", "int", "float", "complex", "bytes", "bytearray", "Decimal", "Any", "AnyStr"]

/-- `DISALLOWED_GENERIC_TYPES` from the source. -/
def DISALLOWED_GENERIC_TYPES : List String :=
  ["list", "List", "dict", "Dict", "set", "Set", "tuple", "Tuple",
   "frozenset", "FrozenSet", "Mapping", "MutableMapping", "Sequence",
   "MutableSequence", "Iterable", "Iterator", "AsyncIterable",
   "AsyncIterator", "AsyncGenerator", "Container", "Collection",
   "Reversible", "DefaultDict", "ChainMap", "Generator", "Optional",
   "ClassVar", "Deque", "Final", "Annotated"]

/-- `ALLOWED_GENERIC_TYPES` from the source. -/
def ALLOWED_GENERIC_TYPES : List String := ["Callable", "Awaitable", "Type"]

/-- Binary operators of `ast.BinOp`: the linter only distinguishes
`ast.BitOr` from every other operator. -/
inductive BOp where
  | bitOr
  | otherOp
deriving DecidableEq, Repr

/-- Python annotation expression nodes, mirroring the `ast` node kinds the
linter's `check_annotation` dispatches on.  Every node carries its
`lineno`.  `other` stands for every remaining `ast.expr` variant
(constants, lambdas, ...), none of which the linter handles. -/
inductive Expr where
  | name (id : String) (lineno : Nat)
  | subscript (value : Expr) (slice : Expr) (lineno : Nat)
  | binOp (op : BOp) (left : Expr) (right : Expr) (lineno : Nat)
  | tupleE (elts : List Expr) (lineno : Nat)
  | call (func : Expr) (args : List Expr) (lineno : Nat)
  | attribute (value : Expr) (attr : String) (lineno : Nat)
  | other (lineno : Nat)

/-- The mutable state of the `Linter` visitor: the ordered error report
and the set of recorded aliases (modelled as a duplicate-free list; only
membership and insertion are used). -/
structure Linter where
  errors : List String
  aliases : List String
deriving DecidableEq, Repr

/-- A fresh `Linter()`: empty report, empty alias set. -/
def initLinter : Linter := ⟨[], []⟩

/-- `Linter.record_error`: appends `f"Строка {lineno}: {message}"` to
`self.errors`.  Every modelled node carries a `lineno`, so the
`getattr` default is unreachable. -/
def record_error (st : Linter) (lineno : Nat) (message : String) : Linter :=
  { st with errors := st.errors ++ ["Строка " ++ toString lineno ++ ": " ++ message] }

/-- The alias-use message of `check_annotation` (first branch). -/
def aliasMsg (id : String) : String :=
  "Использование алиаса \x27" ++ id ++ "\x27 в аннотации недопустимо."

/-- The disallowed-base-type message of `check_annotation`. -/
def baseMsg (id : String) : String :=
  "Использование универсального типа \x27" ++ id ++ "\x27 недопустимо."

/-- The unparameterized-generic message of `check_annotation`. -/
def genericMsg (id : String) : String :=
  "Использование универсального контейнера \x27" ++ id ++ "\x27 без параметров недопустимо."

/-- `Linter.has_parameters`, applied to the subscript's `slice` node: a
`Name` slice counts as parameters only if it is in neither disallowed
set; a `Tuple` slice and everything else count as parameters. -/
def has_parameters (slice : Expr) : Bool :=
  match slice with
  | Expr.name id _ => !(DISALLOWED_GENERIC_TYPES.contains id || DISALLOWED_BASE_TYPES.contains id)
  | Expr.tupleE _ _ => true
  | _ => true

/-- The dotted-path segments collected by `Linter.get_full_attr_name`:
attribute names from the innermost outwards, preceded by the base
identifier when the chain bottoms out at a `Name`. -/
def attr_parts : Expr → List String
  | Expr.attribute v a _ => attr_parts v ++ [a]
  | Expr.name id _ => [id]
  | _ => []

/-- `Linter.get_full_attr_name`: the full dotted path of an attribute
chain, e.g. `m.a.b` for `Attribute(Attribute(Name m, a), b)`. -/
def get_full_attr_name (e : Expr) : String :=
  String.intercalate "." (attr_parts e)

/-- Python's `str.endswith`: the second string is a suffix of the first,
stated over the underlying character lists. -/
def str_endswith (s suf : String) : Bool :=
  List.isSuffixOf suf.data s.data

/-- Whether an expression is a plain identifier (`isinstance(node, ast.Name)`). -/
def isNameE : Expr → Bool
  | Expr.name _ _ => true
  | _ => false

mutual

/-- `Linter.check_annotation`: classify one annotation expression,
appending violations to the report.  Faithful to the source's dispatch:
`Name` (alias, then base type, then bare generic), `Subscript` (with the
`has_parameters` check and recursion), `BinOp` only for `BitOr`,
`Tuple` and `Call` elementwise, `Attribute` by suffix match over
`DISALLOWED_BASE_TYPES`, and a silent fall-through for anything else. -/
def checkAnn (st : Linter) (a : Expr) : Linter :=
  match a with
  | Expr.name id l =>
      if st.aliases.contains id then
        record_error st l (aliasMsg id)
      else if DISALLOWED_BASE_TYPES.contains id then
        record_error st l (baseMsg id)
      else if DISALLOWED_GENERIC_TYPES.contains id then
        record_error st l (genericMsg id)
      else st
  | Expr.subscript outer_type inner_ann _ =>
      match outer_type with
      | Expr.name type_name l =>
          if DISALLOWED_GENERIC_TYPES.contains type_name then
            let st1 := if !(has_parameters inner_ann) then
                record_error st l (genericMsg type_name)
              else st
            checkAnn st1 inner_ann
          else if ALLOWED_GENERIC_TYPES.contains type_name then
            checkAnn st inner_ann
          else
            checkAnn st inner_ann
      | _ => checkAnn (checkAnn st outer_type) inner_ann
  | Expr.binOp op left right _ =>
      match op with
      | BOp.bitOr => checkAnn (checkAnn st left) right
      | BOp.otherOp => st
  | Expr.tupleE elts _ => checkAnnList st elts
  | Expr.call _ args _ => checkAnnList st args
  | Expr.attribute v a l =>
      let full_name := get_full_attr_name (Expr.attribute v a l)
      DISALLOWED_BASE_TYPES.foldl
        (fun s d => if str_endswith full_name d then record_error s l (baseMsg full_name) else s) st
  | Expr.other _ => st

/-- The `for` loops of `check_annotation` over `Tuple.elts` and
`Call.args`: classify each element in order. -/
def checkAnnList (st : Linter) (es : List Expr) : Linter :=
  match es with
  | [] => st
  | e :: rest => checkAnnList (checkAnn st e) rest

end

/-- One formal parameter (`ast.arg`): its name and optional annotation. -/
structure Arg where
  arg : String
  ann : Option Expr

/-- The `ast.arguments` record of a function definition, with all five
parameter groups.  `visit_FunctionDef` iterates only over `args`. -/
structure Arguments where
  posonlyargs : List Arg
  args : List Arg
  vararg : Option Arg
  kwonlyargs : List Arg
  kwarg : Option Arg

/-- Module-level and nested statements the linter's visitor reacts to:
`ast.Assign`, `ast.AnnAssign` (whose `annotation` field is always
present), and `ast.FunctionDef`.  Statement kinds with no visitor and no
statement children are irrelevant to the linter's behaviour. -/
inductive Stmt where
  | assign (targets : List Expr) (value : Expr)
  | annAssign (target : Expr) (ann : Expr)
  | functionDef (name : String) (args : Arguments) (body : List Stmt) (returns : Option Expr)

/-- The body of `visit_Assign`'s loop over `node.targets`: a `Name`
target's identifier is added to the alias set (set insertion: a no-op on
an already-present name); other target shapes are ignored. -/
def add_target_alias (s : Linter) (t : Expr) : Linter :=
  match t with
  | Expr.name tid _ =>
      if s.aliases.contains tid then s else { s with aliases := s.aliases ++ [tid] }
  | _ => s

/-- `Linter.visit_Assign`: when the right-hand side is a `Name` in
`DISALLOWED_BASE_TYPES`, every `Name` target is added to `self.aliases`;
`generic_visit` then finds no further statements inside an assignment. -/
def visit_Assign (st : Linter) (targets : List Expr) (value : Expr) : Linter :=
  match value with
  | Expr.name id _ =>
      if DISALLOWED_BASE_TYPES.contains id then
        targets.foldl add_target_alias st
      else st
  | _ => st

/-- The body of `visit_FunctionDef`'s loop over `node.args.args`:
classify the parameter's annotation when present, skip it otherwise. -/
def visit_arg (s : Linter) (ag : Arg) : Linter :=
  match ag.ann with
  | some a => checkAnn s a
  | none => s

mutual

/-- One step of the visitor's statement dispatch.  `visit_AnnAssign`
classifies the annotation; `visit_FunctionDef` classifies the return
annotation first, then each annotated entry of `args.args`, and
`generic_visit` then descends into the body statements in order. -/
def visitStmt (st : Linter) (s : Stmt) : Linter :=
  match s with
  | Stmt.assign targets value => visit_Assign st targets value
  | Stmt.annAssign _ a => checkAnn st a
  | Stmt.functionDef _ args body returns =>
      let st1 := match returns with
        | some r => checkAnn st r
        | none => st
      let st2 := args.args.foldl visit_arg st1
      visitStmts st2 body

/-- `generic_visit` over a statement list: visit each in document order. -/
def visitStmts (st : Linter) (ss : List Stmt) : Linter :=
  match ss with
  | [] => st
  | s :: rest => visitStmts (visitStmt st s) rest

end

/-- `Linter.visit_Module` followed by `generic_visit`: run the visitor
over the module body in document order, starting from a fresh state. -/
def visit_Module (st : Linter) (body : List Stmt) : Linter :=
  visitStmts st body

/-! ## Helper lemmas -/

/-- The two disallow lists are disjoint: a generic-container name is
never also a base-type name. -/
theorem generic_not_base {s : String}
    (h : DISALLOWED_GENERIC_TYPES.contains s = true) :
    DISALLOWED_BASE_TYPES.contains s = false := by
  have hm : s ∈ DISALLOWED_GENERIC_TYPES := by
    simpa using h
  fin_cases hm <;> decide

/-- An allowed generic name is never a disallowed generic name. -/
theorem allowed_not_generic {s : String}
    (h : ALLOWED_GENERIC_TYPES.contains s = true) :
    DISALLOWED_GENERIC_TYPES.contains s = false := by
  have hm : s ∈ ALLOWED_GENERIC_TYPES := by
    simpa using h
  fin_cases hm <;> decide

/-- Evaluating the attribute-case loop of `check_annotation`: the fold
appends one copy of the message per matching disallow-list entry and
leaves the alias set unchanged. -/
theorem foldl_record_eq (l : Nat) (m : String) (p : String → Bool) :
    ∀ (ds : List String) (st : Linter),
      ds.foldl (fun s d => if p d then record_error s l m else s) st
        = ⟨st.errors ++ (ds.filter p).map
            (fun _ => "Строка " ++ toString l ++ ": " ++ m), st.aliases⟩ := by
  intro ds
  induction ds with
  | nil => intro st; simp
  | cons d rest ih =>
      intro st
      by_cases hd : p d
      · rw [List.foldl_cons, if_pos hd, ih]
        simp [hd, record_error, List.filter_cons]
      · rw [List.foldl_cons, if_neg (by simp [hd]), ih]
        simp [hd, List.filter_cons]

/-- When the outer expression of a subscript is not a plain identifier,
`check_annotation` recurses into the outer expression and then into the
slice. -/
theorem checkAnn_subscript_not_name (st : Linter) (outer inner : Expr) (l : Nat)
    (h : isNameE outer = false) :
    checkAnn st (Expr.subscript outer inner l) = checkAnn (checkAnn st outer) inner := by
  cases outer <;> simp_all [checkAnn, isNameE]

mutual

/-- `check_annotation` never touches the alias set and only appends to
the error report. -/
theorem checkAnn_mono : ∀ (st : Linter) (a : Expr),
    (checkAnn st a).aliases = st.aliases ∧ ∃ t, (checkAnn st a).errors = st.errors ++ t
  | st, Expr.name id l => by
      simp only [checkAnn, record_error]
      split
      · exact ⟨rfl, _, rfl⟩
      · split
        · exact ⟨rfl, _, rfl⟩
        · split
          · exact ⟨rfl, _, rfl⟩
          · exact ⟨rfl, [], by simp⟩
  | st, Expr.subscript outer inner l2 => by
      cases houter : isNameE outer with
      | true =>
          cases outer
          case name tn l =>
            obtain ⟨ha, t, he⟩ := checkAnn_mono st inner
            obtain ⟨ha1, t1, he1⟩ :=
              checkAnn_mono (record_error st l (genericMsg tn)) inner
            simp only [checkAnn]
            split
            · split
              · refine ⟨?_, ["Строка " ++ toString l ++ ": " ++ genericMsg tn] ++ t1, ?_⟩
                · rw [ha1]; simp [record_error]
                · rw [he1]; simp [record_error]
              · exact ⟨ha, t, he⟩
            · split
              · exact ⟨ha, t, he⟩
              · exact ⟨ha, t, he⟩
          all_goals simp [isNameE] at houter
      | false =>
          rw [checkAnn_subscript_not_name st outer inner l2 houter]
          obtain ⟨ha1, t1, he1⟩ := checkAnn_mono st outer
          obtain ⟨ha2, t2, he2⟩ := checkAnn_mono (checkAnn st outer) inner
          exact ⟨by rw [ha2, ha1], t1 ++ t2, by rw [he2, he1, List.append_assoc]⟩
  | st, Expr.binOp op left right l => by
      cases op with
      | bitOr =>
          obtain ⟨ha1, t1, he1⟩ := checkAnn_mono st left
          obtain ⟨ha2, t2, he2⟩ := checkAnn_mono (checkAnn st left) right
          exact ⟨by simp only [checkAnn]; rw [ha2, ha1], t1 ++ t2, by
            simp only [checkAnn]; rw [he2, he1, List.append_assoc]⟩
      | otherOp => exact ⟨rfl, [], by simp [checkAnn]⟩
  | st, Expr.tupleE elts l => by
      obtain ⟨ha, t, he⟩ := checkAnnList_mono st elts
      exact ⟨by simp only [checkAnn]; exact ha, t, by simp only [checkAnn]; exact he⟩
  | st, Expr.call f args l => by
      obtain ⟨ha, t, he⟩ := checkAnnList_mono st args
      exact ⟨by simp only [checkAnn]; exact ha, t, by simp only [checkAnn]; exact he⟩
  | st, Expr.attribute v a l => by
      rw [show checkAnn st (Expr.attribute v a l)
            = DISALLOWED_BASE_TYPES.foldl
                (fun s d => if str_endswith (get_full_attr_name (Expr.attribute v a l)) d
                  then record_error s l (baseMsg (get_full_attr_name (Expr.attribute v a l)))
                  else s) st from by simp only [checkAnn]]
      rw [foldl_record_eq]
      exact ⟨rfl, _, rfl⟩
  | st, Expr.other l => ⟨rfl, [], by simp [checkAnn]⟩

/-- The elementwise loops of `check_annotation` never touch the alias
set and only append to the error report. -/
theorem checkAnnList_mono : ∀ (st : Linter) (es : List Expr),
    (checkAnnList st es).aliases = st.aliases
      ∧ ∃ t, (checkAnnList st es).errors = st.errors ++ t
  | st, [] => ⟨rfl, [], by simp [checkAnnList]⟩
  | st, e :: rest => by
      obtain ⟨ha1, t1, he1⟩ := checkAnn_mono st e
      obtain ⟨ha2, t2, he2⟩ := checkAnnList_mono (checkAnn st e) rest
      refine ⟨?_, t1 ++ t2, ?_⟩
      · simp only [checkAnnList]; rw [ha2, ha1]
      · simp only [checkAnnList]; rw [he2, he1, List.append_assoc]

end

/-- The target loop of `visit_Assign` never touches the report and can
only extend the alias set. -/
theorem foldl_add_target_alias_mono (ts : List Expr) : ∀ st : Linter,
    (ts.foldl add_target_alias st).errors = st.errors
      ∧ ∀ x ∈ st.aliases, x ∈ (ts.foldl add_target_alias st).aliases := by
  induction ts with
  | nil => intro st; exact ⟨rfl, fun x hx => hx⟩
  | cons t rest ih =>
      intro st
      obtain ⟨he, ha⟩ := ih (add_target_alias st t)
      rw [List.foldl_cons]
      have hstep : (add_target_alias st t).errors = st.errors
          ∧ ∀ x ∈ st.aliases, x ∈ (add_target_alias st t).aliases := by
        cases t <;> simp only [add_target_alias]
        case name tid l =>
          split
          · exact ⟨rfl, fun x hx => hx⟩
          · exact ⟨rfl, fun x hx => by simp [hx]⟩
        all_goals exact ⟨by trivial, fun x hx => hx⟩
      exact ⟨by rw [he, hstep.1], fun x hx => ha x (hstep.2 x hx)⟩

/-- `visit_Assign` never touches the report and can only extend the
alias set. -/
theorem visit_Assign_mono (st : Linter) (ts : List Expr) (v : Expr) :
    (visit_Assign st ts v).errors = st.errors
      ∧ ∀ x ∈ st.aliases, x ∈ (visit_Assign st ts v).aliases := by
  cases v <;> simp only [visit_Assign]
  case name id l =>
    split
    · exact foldl_add_target_alias_mono ts st
    · exact ⟨rfl, fun x hx => hx⟩
  all_goals exact ⟨by trivial, fun x hx => hx⟩

/-- The parameter loop of `visit_FunctionDef` never touches the alias
set and only appends to the report. -/
theorem foldl_visit_arg_mono (ags : List Arg) : ∀ st : Linter,
    (ags.foldl visit_arg st).aliases = st.aliases
      ∧ ∃ t, (ags.foldl visit_arg st).errors = st.errors ++ t := by
  induction ags with
  | nil => intro st; exact ⟨rfl, [], by simp⟩
  | cons ag rest ih =>
      intro st
      obtain ⟨ha, t2, he⟩ := ih (visit_arg st ag)
      have hstep : (visit_arg st ag).aliases = st.aliases
          ∧ ∃ t, (visit_arg st ag).errors = st.errors ++ t := by
        cases hag : ag.ann with
        | some a => simpa [visit_arg, hag] using checkAnn_mono st a
        | none => exact ⟨by simp [visit_arg, hag], [], by simp [visit_arg, hag]⟩
      obtain ⟨ha1, t1, he1⟩ := hstep
      refine ⟨?_, t1 ++ t2, ?_⟩
      · rw [List.foldl_cons, ha, ha1]
      · rw [List.foldl_cons, he, he1, List.append_assoc]

mutual

/-- One visitor step only appends to the report and only extends the
alias set. -/
theorem visitStmt_mono : ∀ (st : Linter) (s : Stmt),
    (∃ t, (visitStmt st s).errors = st.errors ++ t)
      ∧ ∀ x ∈ st.aliases, x ∈ (visitStmt st s).aliases
  | st, Stmt.assign ts v => by
      obtain ⟨he, ha⟩ := visit_Assign_mono st ts v
      exact ⟨⟨[], by simp only [visitStmt]; simp [he]⟩, by simp only [visitStmt]; exact ha⟩
  | st, Stmt.annAssign tg a => by
      obtain ⟨ha, t, he⟩ := checkAnn_mono st a
      exact ⟨⟨t, by simp only [visitStmt]; exact he⟩,
             fun x hx => by simp only [visitStmt]; rw [ha]; exact hx⟩
  | st, Stmt.functionDef nm args body returns => by
      have hret : ((match returns with
            | some r => checkAnn st r
            | none => st) : Linter).aliases = st.aliases
          ∧ ∃ t, ((match returns with
            | some r => checkAnn st r
            | none => st) : Linter).errors = st.errors ++ t := by
        cases returns with
        | some r => exact checkAnn_mono st r
        | none => exact ⟨rfl, [], by simp⟩
      obtain ⟨ha1, t1, he1⟩ := hret
      obtain ⟨ha2, t2, he2⟩ := foldl_visit_arg_mono args.args _
      obtain ⟨⟨t3, he3⟩, ha3⟩ := visitStmts_mono _ body
      refine ⟨⟨t1 ++ (t2 ++ t3), ?_⟩, fun x hx => ?_⟩
      · simp only [visitStmt]
        rw [he3, he2, he1, List.append_assoc, List.append_assoc]
      · simp only [visitStmt]
        exact ha3 x (by rw [ha2, ha1]; exact hx)

/-- Visiting a statement list only appends to the report and only
extends the alias set. -/
theorem visitStmts_mono : ∀ (st : Linter) (ss : List Stmt),
    (∃ t, (visitStmts st ss).errors = st.errors ++ t)
      ∧ ∀ x ∈ st.aliases, x ∈ (visitStmts st ss).aliases
  | st, [] => ⟨⟨[], by simp [visitStmts]⟩, fun x hx => by simp only [visitStmts]; exact hx⟩
  | st, s :: rest => by
      obtain ⟨⟨t1, he1⟩, ha1⟩ := visitStmt_mono st s
      obtain ⟨⟨t2, he2⟩, ha2⟩ := visitStmts_mono (visitStmt st s) rest
      refine ⟨⟨t1 ++ t2, ?_⟩, fun x hx => ?_⟩
      · simp only [visitStmts]; rw [he2, he1, List.append_assoc]
      · simp only [visitStmts]; exact ha2 x (ha1 x hx)

end

/-! ## Claim theorems -/

/-- C5: for every dotted (attribute) annotation, `check_annotation`
reconstructs the full dotted path and records one violation per
`DISALLOWED_BASE_TYPES` entry the path ends with (a string suffix
match), touching nothing else — so there is no recursion into the dotted
name.  In particular `somemodule.Decimal` yields exactly one violation
and `somemodule.DomainAmount` yields zero. -/
theorem c5_attribute_suffix_match :
    (∀ (st : Linter) (v : Expr) (a : String) (l : Nat),
      checkAnn st (Expr.attribute v a l)
        = ⟨st.errors ++ (DISALLOWED_BASE_TYPES.filter
              (fun d => str_endswith (get_full_attr_name (Expr.attribute v a l)) d)).map
              (fun _ => "Строка " ++ toString l ++ ": "
                  ++ baseMsg (get_full_attr_name (Expr.attribute v a l))),
           st.aliases⟩)
    ∧ (checkAnn initLinter (Expr.attribute (Expr.name "somemodule" 3) "Decimal" 3)).errors
        = ["Строка 3: " ++ baseMsg "somemodule.Decimal"]
    ∧ (checkAnn initLinter (Expr.attribute (Expr.name "somemodule" 3) "DomainAmount" 3)).errors
        = [] := by
  refine ⟨fun st v a l => ?_, by decide, by decide⟩
  rw [show checkAnn st (Expr.attribute v a l)
        = DISALLOWED_BASE_TYPES.foldl
            (fun s d => if str_endswith (get_full_attr_name (Expr.attribute v a l)) d
              then record_error s l (baseMsg (get_full_attr_name (Expr.attribute v a l)))
              else s) st from by simp only [checkAnn]]
  rw [foldl_record_eq]

/-- C7: the annotation `list[dict]` yields exactly two violations, one
for the unparameterized outer generic and one for the bare inner
generic, each anchored at its own node's source line. -/
theorem c7_nested_generic_two_violations (l1 l2 : Nat) :
    (checkAnn initLinter (Expr.subscript (Expr.name "list" l1) (Expr.name "dict" l2) l1)).errors
      = ["Строка " ++ toString l1 ++ ": " ++ genericMsg "list",
         "Строка " ++ toString l2 ++ ": " ++ genericMsg "dict"] := by
  rfl

/-- C8: a subscript whose outer name is in `ALLOWED_GENERIC_TYPES` is
classified exactly as its slice alone — no violation for the outer name,
recursion only into the inner parameter; concretely, `Callable[int]`
yields exactly the one violation for the inner `int`. -/
theorem c8_allowed_generic_exemption :
    (∀ (st : Linter) (nm : String) (inner : Expr) (l l2 : Nat),
      ALLOWED_GENERIC_TYPES.contains nm = true →
      checkAnn st (Expr.subscript (Expr.name nm l) inner l2) = checkAnn st inner)
    ∧ (checkAnn initLinter
        (Expr.subscript (Expr.name "Callable" 1) (Expr.name "int" 2) 1)).errors
        = ["Строка 2: " ++ baseMsg "int"] := by
  refine ⟨fun st nm inner l l2 h => ?_, by decide⟩
  have hg : DISALLOWED_GENERIC_TYPES.contains nm = false := allowed_not_generic h
  simp only [checkAnn]
  rw [hg, h]
  simp

/-- Closed instance of `c8_allowed_generic_exemption`: applies the
universal part to `Awaitable[UserId]` and discharges the membership
hypothesis by evaluation. -/
theorem c8_witness :
    checkAnn initLinter (Expr.subscript (Expr.name "Awaitable" 7) (Expr.name "UserId" 8) 7)
      = checkAnn initLinter (Expr.name "UserId" 8) :=
  c8_allowed_generic_exemption.1 initLinter "Awaitable" (Expr.name "UserId" 8) 7 7 (by decide)

/-- C9: `check_annotation` is a total function of the annotation tree
(it terminates on every input by construction of the shallow embedding),
and an annotation of an unrecognized shape — any expression variant
outside the handled cases, or a binary operation whose operator is not
`|` — falls through silently: the state is returned unchanged, zero
violations. -/
theorem c9_unrecognized_shape_accepted :
    ∀ (st : Linter) (l : Nat) (a b : Expr),
      checkAnn st (Expr.other l) = st
      ∧ checkAnn st (Expr.binOp BOp.otherOp a b l) = st := by
  intro st l a b
  exact ⟨rfl, rfl⟩

/-- C10: every operation of the linter is monotone over a run:
`record_error` appends exactly one formatted entry and keeps the alias
set; `visit_Assign` keeps the report and only extends the alias set;
`check_annotation` keeps the alias set and only appends to the report;
and a visitor step (and a whole module visit) only appends to the report
and only extends the alias set — nothing is ever removed, replaced or
reordered. -/
theorem c10_monotone_state :
    (∀ (st : Linter) (l : Nat) (m : String),
        (record_error st l m).errors = st.errors ++ ["Строка " ++ toString l ++ ": " ++ m]
        ∧ (record_error st l m).aliases = st.aliases)
    ∧ (∀ (st : Linter) (ts : List Expr) (v : Expr),
        (visit_Assign st ts v).errors = st.errors
        ∧ ∀ x ∈ st.aliases, x ∈ (visit_Assign st ts v).aliases)
    ∧ (∀ (st : Linter) (a : Expr),
        (checkAnn st a).aliases = st.aliases
        ∧ ∃ t, (checkAnn st a).errors = st.errors ++ t)
    ∧ (∀ (st : Linter) (s : Stmt),
        (∃ t, (visitStmt st s).errors = st.errors ++ t)
        ∧ ∀ x ∈ st.aliases, x ∈ (visitStmt st s).aliases)
    ∧ (∀ (st : Linter) (body : List Stmt),
        (∃ t, (visit_Module st body).errors = st.errors ++ t)
        ∧ ∀ x ∈ st.aliases, x ∈ (visit_Module st body).aliases) :=
  ⟨fun _ _ _ => ⟨rfl, rfl⟩, visit_Assign_mono, checkAnn_mono, visitStmt_mono,
   fun st body => visitStmts_mono st body⟩

/-- Closed instance of `c10_monotone_state`: an already-recorded alias
survives a further `visit_Assign` step. -/
theorem c10_witness :
    "A" ∈ (visit_Assign ⟨[], ["A"]⟩ [] (Expr.other 1)).aliases :=
  (c10_monotone_state.2.1 ⟨[], ["A"]⟩ [] (Expr.other 1)).2 "A" (by simp)

/-- C1 counterexample: in a module where the annotation referencing the
would-be alias textually precedes the `AliasName = str` assignment, the
single-pass visitor records no violation at all — not the one
`AliasLeak` violation the claim promises for either order. -/
theorem c1_counterexample :
    (visit_Module initLinter
      [Stmt.annAssign (Expr.name "x" 1) (Expr.name "AliasName" 1),
       Stmt.assign [Expr.name "AliasName" 2] (Expr.name "str" 2)]).errors = [] := by
  decide

/-- C1 amended: alias detection is flow-sensitive.  For a user-chosen
alias name (in neither disallow list) assigned a disallowed base type,
exactly one `AliasLeak` violation is produced when the alias assignment
textually precedes the annotation, and zero violations are produced when
it follows it. -/
theorem c1_alias_order (A p : String) (x : Expr) (lAsn lAnn : Nat)
    (hp : DISALLOWED_BASE_TYPES.contains p = true)
    (hA1 : DISALLOWED_BASE_TYPES.contains A = false)
    (hA2 : DISALLOWED_GENERIC_TYPES.contains A = false) :
    (visit_Module initLinter
      [Stmt.assign [Expr.name A lAsn] (Expr.name p lAsn),
       Stmt.annAssign x (Expr.name A lAnn)]).errors
        = ["Строка " ++ toString lAnn ++ ": " ++ aliasMsg A]
    ∧ (visit_Module initLinter
      [Stmt.annAssign x (Expr.name A lAnn),
       Stmt.assign [Expr.name A lAsn] (Expr.name p lAsn)]).errors = [] := by
  have hp2 : p ∈ DISALLOWED_BASE_TYPES := by simpa using hp
  have hA1m : A ∉ DISALLOWED_BASE_TYPES := by simpa using hA1
  have hA2m : A ∉ DISALLOWED_GENERIC_TYPES := by simpa using hA2
  have h1 : visitStmt initLinter (Stmt.assign [Expr.name A lAsn] (Expr.name p lAsn))
      = ⟨[], [A]⟩ := by
    simp [visitStmt, visit_Assign, hp2, add_target_alias, initLinter, List.contains]
  have h2 : checkAnn ⟨[], [A]⟩ (Expr.name A lAnn)
      = ⟨["Строка " ++ toString lAnn ++ ": " ++ aliasMsg A], [A]⟩ := by
    simp [checkAnn, record_error, List.contains]
  have h3 : visitStmt initLinter (Stmt.annAssign x (Expr.name A lAnn)) = initLinter := by
    simp [visitStmt, checkAnn, hA1m, hA2m, initLinter, List.contains]
  constructor
  · show (visitStmts initLinter _).errors = _
    rw [visitStmts, visitStmts, visitStmts, h1]
    show (checkAnn ⟨[], [A]⟩ (Expr.name A lAnn)).errors = _
    rw [h2]
  · show (visitStmts initLinter _).errors = _
    rw [visitStmts, visitStmts, visitStmts, h3, h1]

/-- Closed instance of `c1_alias_order`: `UserAlias = str` before the
annotation gives exactly one alias violation; after it, none. -/
theorem c1_witness :
    (visit_Module initLinter
      [Stmt.assign [Expr.name "UserAlias" 1] (Expr.name "str" 1),
       Stmt.annAssign (Expr.name "v" 2) (Expr.name "UserAlias" 2)]).errors
        = ["Строка " ++ toString 2 ++ ": " ++ aliasMsg "UserAlias"]
    ∧ (visit_Module initLinter
      [Stmt.annAssign (Expr.name "v" 2) (Expr.name "UserAlias" 2),
       Stmt.assign [Expr.name "UserAlias" 1] (Expr.name "str" 1)]).errors = [] :=
  c1_alias_order "UserAlias" "str" (Expr.name "v" 2) 1 2 (by decide) (by decide) (by decide)

/-- C2 counterexample: for `def f(x: int) -> str` (parameter annotation
on line 1, return annotation on line 2) the report lists the
return-annotation violation first — not the textually earlier parameter
violation first, as the claim requires. -/
theorem c2_counterexample :
    (visit_Module initLinter
      [Stmt.functionDef "f" ⟨[], [⟨"x", some (Expr.name "int" 1)⟩], none, [], none⟩ []
        (some (Expr.name "str" 2))]).errors
      = ["Строка 2: " ++ baseMsg "str", "Строка 1: " ++ baseMsg "int"]
    ∧ (visit_Module initLinter
      [Stmt.functionDef "f" ⟨[], [⟨"x", some (Expr.name "int" 1)⟩], none, [], none⟩ []
        (some (Expr.name "str" 2))]).errors
      ≠ ["Строка 1: " ++ baseMsg "int", "Строка 2: " ++ baseMsg "str"] := by
  exact ⟨by decide, by decide⟩

/-- C2 amended: violations are accumulated in visit order with no
deduplication, and statements contribute in document order; but inside
one function declaration `visit_FunctionDef` classifies the return
annotation before the parameter annotations, so for a function whose
parameter and return annotations both violate, the return-annotation
violation precedes the parameter violations in the report. -/
theorem c2_visit_order :
    (∀ (nm xn p r : String) (lp lr : Nat),
      DISALLOWED_BASE_TYPES.contains p = true →
      DISALLOWED_BASE_TYPES.contains r = true →
      (visitStmt initLinter
        (Stmt.functionDef nm ⟨[], [⟨xn, some (Expr.name p lp)⟩], none, [], none⟩ []
          (some (Expr.name r lr)))).errors
        = ["Строка " ++ toString lr ++ ": " ++ baseMsg r,
           "Строка " ++ toString lp ++ ": " ++ baseMsg p])
    ∧ ∀ (st : Linter) (ss1 ss2 : List Stmt),
        visitStmts st (ss1 ++ ss2) = visitStmts (visitStmts st ss1) ss2 := by
  constructor
  · intro nm xn p r lp lr hp hr
    have hpm : p ∈ DISALLOWED_BASE_TYPES := by simpa using hp
    have hrm : r ∈ DISALLOWED_BASE_TYPES := by simpa using hr
    simp [visitStmt, visitStmts, visit_arg, checkAnn, hpm, hrm, record_error,
      initLinter, List.contains]
  · intro st ss1 ss2
    induction ss1 generalizing st with
    | nil => rw [List.nil_append, visitStmts]
    | cons s rest ih => rw [List.cons_append, visitStmts, visitStmts, ih]

/-- Closed instance of `c2_visit_order`: evaluates the function-order
part at `def f(x: int) -> str` and the sequencing part on two
singleton statement lists. -/
theorem c2_witness :
    (visitStmt initLinter
      (Stmt.functionDef "f" ⟨[], [⟨"x", some (Expr.name "int" 1)⟩], none, [], none⟩ []
        (some (Expr.name "str" 2)))).errors
      = ["Строка " ++ toString 2 ++ ": " ++ baseMsg "str",
         "Строка " ++ toString 1 ++ ": " ++ baseMsg "int"] :=
  c2_visit_order.1 "f" "x" "int" "str" 1 2 (by decide) (by decide)

/-- C3 counterexample: for `bytes[X]` — a disallowed base type used as
the outer name of a subscript — the classifier yields no violation at
all: it does not recurse into a plain-identifier outer name, so `bytes`
is never flagged, contrary to the claim. -/
theorem c3_counterexample :
    (checkAnn initLinter
      (Expr.subscript (Expr.name "bytes" 1) (Expr.name "X" 1) 1)).errors = [] := by
  decide

/-- C3 amended: when the outer expression of a subscript is a plain
identifier in neither `DISALLOWED_GENERIC_TYPES` nor
`ALLOWED_GENERIC_TYPES`, the classifier recurses into the inner
parameter only — the outer identifier itself is never examined; the
classifier recurses into both the outer expression and the inner
parameter only when the outer expression is not a plain identifier. -/
theorem c3_subscript_recursion :
    (∀ (st : Linter) (tn : String) (l l2 : Nat) (inner : Expr),
        DISALLOWED_GENERIC_TYPES.contains tn = false →
        ALLOWED_GENERIC_TYPES.contains tn = false →
        checkAnn st (Expr.subscript (Expr.name tn l) inner l2) = checkAnn st inner)
    ∧ (∀ (st : Linter) (outer inner : Expr) (l : Nat),
        isNameE outer = false →
        checkAnn st (Expr.subscript outer inner l) = checkAnn (checkAnn st outer) inner) := by
  refine ⟨fun st tn l l2 inner h1 h2 => ?_,
          fun st outer inner l h => checkAnn_subscript_not_name st outer inner l h⟩
  simp only [checkAnn]
  rw [h1, h2]
  simp

/-- Closed instance of `c3_subscript_recursion`: `bytes[X]` is
classified exactly as its slice `X` alone, and an attribute outer
`m.T[X]` is classified through both the outer and the inner
expression. -/
theorem c3_witness :
    checkAnn initLinter (Expr.subscript (Expr.name "bytes" 1) (Expr.name "X" 1) 1)
      = checkAnn initLinter (Expr.name "X" 1)
    ∧ checkAnn initLinter
        (Expr.subscript (Expr.attribute (Expr.name "m" 1) "T" 1) (Expr.name "X" 1) 1)
      = checkAnn (checkAnn initLinter (Expr.attribute (Expr.name "m" 1) "T" 1))
          (Expr.name "X" 1) :=
  ⟨c3_subscript_recursion.1 initLinter "bytes" 1 1 (Expr.name "X" 1) (by decide) (by decide),
   c3_subscript_recursion.2 initLinter (Expr.attribute (Expr.name "m" 1) "T" 1)
     (Expr.name "X" 1) 1 (by decide)⟩

/-- C4 counterexample: an annotated keyword-only parameter
(`def f(*, k: int)`) and an annotated positional-only parameter
(`def g(q: str, /)`) produce no violation: `visit_FunctionDef` iterates
only over `args.args`, not over every parameter kind as the claim
states. -/
theorem c4_counterexample :
    (visit_Module initLinter
      [Stmt.functionDef "f" ⟨[], [], none, [⟨"k", some (Expr.name "int" 1)⟩], none⟩ []
        none]).errors = []
    ∧ (visit_Module initLinter
      [Stmt.functionDef "g" ⟨[⟨"q", some (Expr.name "str" 1)⟩], [], none, [], none⟩ []
        none]).errors = [] := by
  exact ⟨by decide, by decide⟩

/-- C4 amended: the walker classifies the return-type annotation (if
present) and the annotation of each positional-or-keyword parameter
(the `args.args` group) only — the other parameter groups
(positional-only, keyword-only, `*args`, `**kwargs`) never influence
the outcome — and a declaration whose checked parameters carry no
annotations and which has no return annotation and empty body produces
no violation. -/
theorem c4_function_params :
    (∀ (st : Linter) (nm : String) (A B : Arguments) (body : List Stmt) (ret : Option Expr),
        A.args = B.args →
        visitStmt st (Stmt.functionDef nm A body ret)
          = visitStmt st (Stmt.functionDef nm B body ret))
    ∧ (∀ (st : Linter) (nm : String) (A : Arguments),
        (∀ ag ∈ A.args, ag.ann = none) →
        visitStmt st (Stmt.functionDef nm A [] none) = st) := by
  constructor
  · intro st nm A B body ret h
    simp only [visitStmt]
    rw [h]
  · intro st nm A h
    simp only [visitStmt, visitStmts]
    have : ∀ (ags : List Arg) (st' : Linter), (∀ ag ∈ ags, ag.ann = none) →
        ags.foldl visit_arg st' = st' := by
      intro ags
      induction ags with
      | nil => intro st' _; rfl
      | cons ag rest ih =>
          intro st' hall
          rw [List.foldl_cons]
          have hnone : ag.ann = none := hall ag (by simp)
          rw [show visit_arg st' ag = st' from by simp [visit_arg, hnone]]
          exact ih st' (fun b hb => hall b (by simp [hb]))
    exact this A.args st h

/-- Closed instance of `c4_function_params`: the keyword-only group is
invisible to the walker, and a fully unannotated signature leaves the
state untouched. -/
theorem c4_witness :
    visitStmt initLinter
      (Stmt.functionDef "f" ⟨[], [], none, [⟨"k", some (Expr.name "int" 1)⟩], none⟩ [] none)
      = visitStmt initLinter (Stmt.functionDef "f" ⟨[], [], none, [], none⟩ [] none)
    ∧ visitStmt initLinter
        (Stmt.functionDef "g" ⟨[], [⟨"x", none⟩], none, [], none⟩ [] none) = initLinter :=
  ⟨c4_function_params.1 initLinter "f" ⟨[], [], none, [⟨"k", some (Expr.name "int" 1)⟩], none⟩
      ⟨[], [], none, [], none⟩ [] none rfl,
   c4_function_params.2 initLinter "g" ⟨[], [⟨"x", none⟩], none, [], none⟩
      (by intro ag hag; simp at hag; rw [hag])⟩

/-- C6: for an identifier in `DISALLOWED_GENERIC_TYPES`, the bare
identifier alone yields exactly one unparameterized-generic violation;
the same name subscripted by an accepted domain-type name yields zero
violations; and a subscript whose sole parameter is itself a bare
disallowed generic or disallowed base type name still counts as
unparameterized — its first recorded violation is the
unparameterized-generic violation for the outer name. -/
theorem c6_generic_parameterization (g p b : String) (lg l1 l2 : Nat)
    (hg : DISALLOWED_GENERIC_TYPES.contains g = true)
    (hp1 : DISALLOWED_BASE_TYPES.contains p = false)
    (hp2 : DISALLOWED_GENERIC_TYPES.contains p = false)
    (hb : (DISALLOWED_GENERIC_TYPES.contains b || DISALLOWED_BASE_TYPES.contains b) = true) :
    (checkAnn initLinter (Expr.name g lg)).errors
      = ["Строка " ++ toString lg ++ ": " ++ genericMsg g]
    ∧ (checkAnn initLinter (Expr.subscript (Expr.name g l1) (Expr.name p l2) l1)).errors = []
    ∧ (checkAnn initLinter
        (Expr.subscript (Expr.name g l1) (Expr.name b l2) l1)).errors.head?
      = some ("Строка " ++ toString l1 ++ ": " ++ genericMsg g) := by
  have hgb : DISALLOWED_BASE_TYPES.contains g = false := generic_not_base hg
  have hgm : g ∈ DISALLOWED_GENERIC_TYPES := by simpa using hg
  have hgbm : g ∉ DISALLOWED_BASE_TYPES := by simpa using hgb
  have hp1m : p ∉ DISALLOWED_BASE_TYPES := by simpa using hp1
  have hp2m : p ∉ DISALLOWED_GENERIC_TYPES := by simpa using hp2
  have hbp : has_parameters (Expr.name b l2) = false := by
    simp only [has_parameters, hb]
    rfl
  refine ⟨?_, ?_, ?_⟩
  · simp [checkAnn, initLinter, hgm, hgbm, record_error, List.contains]
  · simp [checkAnn, has_parameters, initLinter, hgm, hgbm, hp1m, hp2m, record_error,
      List.contains]
  · have hred : checkAnn initLinter (Expr.subscript (Expr.name g l1) (Expr.name b l2) l1)
        = checkAnn (record_error initLinter l1 (genericMsg g)) (Expr.name b l2) := by
      simp only [checkAnn]
      rw [hg, hbp]
      simp
    obtain ⟨ha, t, he⟩ := checkAnn_mono (record_error initLinter l1 (genericMsg g))
      (Expr.name b l2)
    rw [hred, he]
    simp [record_error, initLinter]

/-- Closed instance of `c6_generic_parameterization`: `list` bare,
`list[UserId]`, and `list[dict]`. -/
theorem c6_witness :
    (checkAnn initLinter (Expr.name "list" 1)).errors
      = ["Строка " ++ toString 1 ++ ": " ++ genericMsg "list"]
    ∧ (checkAnn initLinter
        (Expr.subscript (Expr.name "list" 2) (Expr.name "UserId" 3) 2)).errors = []
    ∧ (checkAnn initLinter
        (Expr.subscript (Expr.name "list" 2) (Expr.name "dict" 3) 2)).errors.head?
      = some ("Строка " ++ toString 2 ++ ": " ++ genericMsg "list") :=
  c6_generic_parameterization "list" "UserId" "dict" 1 2 3
    (by decide) (by decide) (by decide) (by decide)
